import Mathlib

/-
Verification development for the smart-contract packaging pipeline and the
dev-mode toggle of the blockchain VS Code extension.

The pipeline (src/client/src/commands/packageSmartContractCommand.ts) is
embedded shallowly: every stage is a pure Lean function over an explicit
environment record that captures the external collaborators (workspace
folder enumeration, interactive prompts, glob results, fs.stat outcomes,
fs-extra success or failure).  Observable behaviour (error notifications,
info notifications, log lines, directory creation, copies, the explorer
refresh signal) is recorded in an event trace, and thrown JavaScript errors
are modelled with Except.  JavaScript value semantics that the code relies
on (undefined, falsiness of the empty string, string concatenation with
undefined) are modelled explicitly.
-/

namespace BlockchainExt

/-! String primitives.  The platform string operations the source relies
on (suffix test, split, join, emptiness) are implemented structurally
over the character list of the string, so that every definition in this
development evaluates inside the kernel on concrete inputs. -/

/-- Suffix test on strings, structural over the character lists. -/
def strEndsWith (s suf : String) : Bool := suf.data.isSuffixOf s.data

/-- Test for a leading character, structural over the character list. -/
def strStartsWith (s : String) (c : Char) : Bool :=
  match s.data with
  | [] => false
  | a :: _ => a = c

/-- Emptiness test on strings, structural over the character list. -/
def strIsEmpty (s : String) : Bool := s.data.isEmpty

/-- Removal of the first character of a string. -/
def strDropOne (s : String) : String := String.mk (s.data.drop 1)

/-- Character-list splitting on a separator character. -/
def splitOnChar (c : Char) : List Char → List (List Char)
  | [] => [[]]
  | a :: t =>
    let r := splitOnChar c t
    if a = c then [] :: r
    else
      match r with
      | [] => [[a]]
      | h :: t2 => (a :: h) :: t2

/-- String splitting on a separator character. -/
def strSplitOn (s : String) (c : Char) : List String :=
  (splitOnChar c s.data).map String.mk

/-- Joining of strings with a separator. -/
def strIntercalate (sep : String) : List String → String
  | [] => ""
  | [x] => x
  | x :: y :: xs => x ++ sep ++ strIntercalate sep (y :: xs)

/-- JavaScript String(Error) conversion: an Error object rendered as a
string is its message with an Error heading, which is what
new Error(err) and showErrorMessage(err) observe. -/
def errStr (m : String) : String := "Error: " ++ m

/-- JavaScript string conversion of a possibly-undefined value, as used by
the + string concatenation operator. -/
def jsStr : Option String → String
  | none => "undefined"
  | some s => s

/-- JavaScript falsiness on a possibly-undefined string: undefined and the
empty string are both falsy. -/
def jsFalsy : Option String → Bool
  | none => true
  | some s => strIsEmpty s

/-! Messages taken verbatim from the source. -/

def uncompiledMsg : String :=
  "Please ensure you have compiled your typescript files into javascript."

def langFailMsg : String :=
  "Failed to determine workspace language type, please ensure your project contains a chaincode file in the correct format (**/*.js, **/.ts, **/*.go)!"

def manifestMsg : String :=
  "Please enter a package name and/or package version into your package.json"

def goMetaMsg : String :=
  "Could not create package directory, please input a name or version for your go project."

def goExistsMsg : String :=
  "Could not create package directory, please input a different name or version for your go project."

def jsExistsMsg : String :=
  "Please change the name and/or the version of the project in your package.json file."

def wsDiscMsg : String :=
  "Issue determining available workspace folder options"

/-- Message of the JavaScript TypeError raised when a property of
undefined is read (properties.workspacePackageName with properties
undefined).  Modelled from the JavaScript runtime, not from the source. -/
def propTypeErrorMsg : String :=
  "TypeError: Cannot read property of undefined"

/-- Message of the TypeError raised by path.join or fs-extra when handed
undefined instead of a string path.  Modelled from the JavaScript
runtime, not from the source. -/
def pathTypeErrorMsg : String :=
  "TypeError: Path must be a string. Received undefined"

/-! Node path.join on POSIX: segments are joined with a separator and the
result is normalised (duplicate separators removed, dot segments
resolved). -/

def normalizeComponents (comps : List String) (isAbs : Bool) : List String :=
  (comps.foldl
    (fun acc c =>
      if c = "" ∨ c = "." then acc
      else if c = ".." then
        match acc with
        | [] => if isAbs then [] else [".."]
        | a :: rest => if a = ".." then c :: acc else rest
      else c :: acc)
    []).reverse

def pathJoin (parts : List String) : String :=
  let joined := strIntercalate "/" (parts.filter (fun p => p ≠ ""))
  if joined = "" then "."
  else
    let isAbs := strStartsWith joined '/'
    let core := strIntercalate "/" (normalizeComponents (strSplitOn joined '/') isAbs)
    if isAbs then "/" ++ core
    else if core = "" then "." else core

/-! Observable events of one invocation of the pipeline. -/

inductive Event where
  | logMsg (m : String)
  | errorShown (m : String)
  | infoShown (m : String)
  | mkdirpEv (d : String)
  | copyEv (src dst : String)
  | refreshEv
deriving DecidableEq, Repr

abbrev Trace := List Event

/-- Filesystem mutations are directory creations and copies. -/
def Event.isFsMutation : Event → Bool
  | .mkdirpEv _ => true
  | .copyEv _ _ => true
  | _ => false

/-- Error notifications shown to the user. -/
def Event.isErrorShown : Event → Bool
  | .errorShown _ => true
  | _ => false

/-- Model of the durable filesystem state the pipeline mutates: the set of
directories that exist and the files (path and content) that exist. -/
structure FSState where
  dirs : List String
  files : List (String × String)
deriving DecidableEq, Repr

/-- All ancestors of a directory path, innermost last; fs.mkdirp creates
exactly these. -/
def ancestorDirs (d : String) : List String :=
  let comps := (strSplitOn d '/').filter (fun c => c ≠ "")
  let head := if strStartsWith d '/' then "/" else ""
  (List.range comps.length).map
    (fun i => head ++ strIntercalate "/" (comps.take (i + 1)))

/-- fs.mkdirp: creates the directory and every intermediate ancestor. -/
def FSState.mkdirp (fs : FSState) (d : String) : FSState :=
  { fs with dirs := ancestorDirs d ++ fs.dirs }

/-- fs.copy: recursively copies a source listing (relative path and
content) under the destination, preserving relative structure and
filtering nothing. -/
def FSState.copyInto (fs : FSState) (listing : List (String × String)) (dst : String) : FSState :=
  { fs with files := listing.map (fun pc => (dst ++ "/" ++ pc.1, pc.2)) ++ fs.files }

/-- Outcome of the fs.stat probe at the computed destination. -/
inductive StatOutcome where
  | stats (isDir : Bool)
  | enoent
  | otherError (m : String)
deriving DecidableEq, Repr

/-- External collaborators of one pipeline invocation: the host editor,
the interactive prompts, the glob scanner and the filesystem probes. -/
structure Env where
  /-- vscode workspace folder names as enumerated by the host; none when
  no workspace is open. -/
  hostFolders : Option (List String)
  /-- Result of the workspace quick pick; none when the user cancels. -/
  quickPick : Option String
  /-- vscode.workspace.workspaceFolders as (name, uri.path) pairs. -/
  workspaceFolders : List (String × String)
  /-- Glob scan results for a working directory; the none index is the
  process working directory used when the cwd passed to glob is
  undefined. -/
  filesOf : Option String → List String
  /-- package.json name and version fields of a workspace directory;
  none models an absent field, some an empty or non-empty string. -/
  manifestOf : String → Option String × Option String
  /-- Result of the go package name input box; none when cancelled. -/
  nameInput : Option String
  /-- Result of the go package version input box; none when cancelled. -/
  versionInput : Option String
  /-- fs.stat outcome at each probed path. -/
  statOf : String → StatOutcome
  /-- When some, fs.mkdirp or fs.copy fails with this error message. -/
  fsFail : Option String
  /-- Recursive file listing (relative path, content) of a workspace
  directory, as consumed by fs.copy. -/
  wsFilesOf : String → List (String × String)

/-- Modelled from the spec: CommandsUtil.getWorkspaceFolders is not under
src/ (only this caller is).  Per spec section 4.1 the folder-list
retrieval fails when the set of open workspace folders is empty or
unavailable, so the enumeration of an empty or absent folder set is an
error. -/
def getWorkspaceFolders (hostFolders : Option (List String)) : Except String (List String) :=
  match hostFolders with
  | none => .error "Could not determine workspace folders"
  | some [] => .error "Could not determine workspace folders"
  | some l => .ok l

/-- Glob pattern component filter: the ignore pattern for node_modules
matches any path with node_modules as an intermediate directory
component. -/
def isInNodeModules (f : String) : Bool :=
  ((strSplitOn f '/').dropLast).contains "node_modules"

/-- One Glob call: files under the workspace whose name matches the
extension, with anything under node_modules ignored. -/
def globFilter (files : List String) (ext : String) : List String :=
  (files.filter (fun f => !(isInNodeModules f))).filter (fun f => strEndsWith f ext)

/-- getLanguage (packageSmartContractCommand.ts lines 149 to 174): three
glob scans, then the precedence cascade over the result counts.  The
returned value is the language segment string; none models the undefined
fall-through. -/
def getLanguage (files : List String) : Trace × Except String (Option String) :=
  let jsFiles := globFilter files ".js"
  let tsFiles := globFilter files ".ts"
  let goFiles := globFilter files ".go"
  if 0 < jsFiles.length ∧ 0 < tsFiles.length then
    ([], .ok (some "/typescript/"))
  else if 0 < tsFiles.length ∧ jsFiles.length = 0 then
    ([.errorShown uncompiledMsg], .error uncompiledMsg)
  else if 0 < goFiles.length then
    ([], .ok (some "/go/src/"))
  else if 0 < jsFiles.length then
    ([], .ok (some "/javascript/"))
  else
    ([], .ok none)

/-- packageJsonNameAndVersion (lines 180 to 193): reads the manifest of
the workspace directory and rejects a falsy name or version.  A call with
an undefined workspace directory raises the path TypeError of
path.join. -/
def packageJsonNameAndVersion (env : Env) (workspaceDir : Option String) :
    Trace × Except String (Option (Option String × Option String)) :=
  match workspaceDir with
  | none => ([], .error pathTypeErrorMsg)
  | some ws =>
    let manifest := env.manifestOf ws
    if jsFalsy manifest.1 || jsFalsy manifest.2 then
      ([.errorShown manifestMsg], .error manifestMsg)
    else
      ([], .ok (some manifest))

/-- golangPackageAndVersion (lines 199 to 217): sequential input boxes.
The name guard treats undefined and the empty string as cancellation; the
version guard is the inverted truthiness test of the source, so a
provided version returns undefined and a cancelled version is passed
through as undefined. -/
def golangPackageAndVersion (env : Env) :
    Trace × Except String (Option (Option String × Option String)) :=
  match env.nameInput with
  | none => ([], .ok none)
  | some n =>
    if strIsEmpty n then ([], .ok none)
    else
      match env.versionInput with
      | some v =>
        if !(strIsEmpty v) then ([], .ok none)
        else ([.errorShown goMetaMsg], .error goMetaMsg)
      | none => ([], .ok (some (some n, none)))

/-- Destination path computation of getFinalDirectory line 121. -/
def finalDir (packageDir language name version : String) : String :=
  pathJoin [packageDir, language, name ++ "@v" ++ version]

/-- Collision message chosen by language family (lines 127 to 131). -/
def familyExistsMsg (language : String) : String :=
  if language = "/go/src/" then goExistsMsg else jsExistsMsg

/-- getFinalDirectory (lines 106 to 142): language detection, metadata
resolution, destination computation and the stat probe with its
try/catch.  A some result is the confirmed destination; a none result is
the undefined fall-through when the probed entry exists but is not a
directory. -/
def getFinalDirectory (env : Env) (packageDir : String) (workspaceDir : Option String) :
    Trace × Except String (Option String) :=
  let langStep := getLanguage (env.filesOf workspaceDir)
  match langStep.2 with
  | .error m => (langStep.1, .error m)
  | .ok none => (langStep.1 ++ [.errorShown langFailMsg], .error langFailMsg)
  | .ok (some language) =>
    let propsStep :=
      if language = "/go/src/" then golangPackageAndVersion env
      else packageJsonNameAndVersion env workspaceDir
    match propsStep.2 with
    | .error m => (langStep.1 ++ propsStep.1, .error m)
    | .ok none => (langStep.1 ++ propsStep.1, .error propTypeErrorMsg)
    | .ok (some props) =>
      let dir := finalDir packageDir language (jsStr props.1) (jsStr props.2)
      match env.statOf dir with
      | .stats true =>
        let m := familyExistsMsg language
        (langStep.1 ++ propsStep.1 ++ [.errorShown m, .errorShown (errStr m)],
         .error (errStr m))
      | .stats false => (langStep.1 ++ propsStep.1, .ok none)
      | .enoent => (langStep.1 ++ propsStep.1, .ok (some dir))
      | .otherError m =>
        (langStep.1 ++ propsStep.1 ++ [.errorShown (errStr m)], .error (errStr m))

/-- chooseWorkspace (lines 70 to 98): folder enumeration with its
try/catch, the quick pick for multiple folders, the membership test whose
failure is the silent cancellation return, and the name lookup among the
open folders. -/
def chooseWorkspace (env : Env) : Trace × Except String (Option String) :=
  let t0 : Trace := [.logMsg "Getting workspace folders..."]
  match getWorkspaceFolders env.hostFolders with
  | .error _ => (t0 ++ [.errorShown wsDiscMsg], .error wsDiscMsg)
  | .ok workspaceFolderOptions =>
    let workspaceFolder : Option String :=
      if 1 < workspaceFolderOptions.length then env.quickPick
      else workspaceFolderOptions[0]?
    match workspaceFolder with
    | none => (t0, .ok none)
    | some f =>
      if workspaceFolderOptions.contains f then
        match env.workspaceFolders.find? (fun p => p.1 == f) with
        | some p => (t0, .ok (some p.2))
        | none => (t0, .ok none)
      else (t0, .ok none)

/-- createAndPackage (lines 226 to 235): mkdirp then copy then the
success notification, with the catch that shows and rethrows any
failure.  An undefined destination or workspace directory raises the
fs-extra path TypeError inside the try and is caught there. -/
def createAndPackage (fs : FSState) (dir workspaceDir : Option String)
    (wsListing : List (String × String)) (fsFail : Option String) :
    FSState × Trace × Except String Unit :=
  match dir, workspaceDir with
  | some d, some ws =>
    match fsFail with
    | some e => (fs, [.errorShown (errStr e)], .error (errStr e))
    | none =>
      ((fs.mkdirp d).copyInto wsListing d,
       [.mkdirpEv d, .copyEv ws d, .infoShown ("Smart Contract packaged: " ++ d)],
       .ok ())
  | _, _ => (fs, [.errorShown (errStr pathTypeErrorMsg)], .error (errStr pathTypeErrorMsg))

/-- createPackageDir (lines 60 to 64): the three stages in sequence.  The
workspace and destination options are passed along unchecked, exactly as
in the source. -/
def createPackageDir (env : Env) (fs : FSState) (packageDir : String) :
    FSState × Trace × Except String Unit :=
  let wsStep := chooseWorkspace env
  match wsStep.2 with
  | .error m => (fs, wsStep.1, .error m)
  | .ok workspaceDir =>
    let dirStep := getFinalDirectory env packageDir workspaceDir
    match dirStep.2 with
    | .error m => (fs, wsStep.1 ++ dirStep.1, .error m)
    | .ok dir =>
      let listing :=
        match workspaceDir with
        | some ws => env.wsFilesOf ws
        | none => []
      let pkgStep := createAndPackage fs dir workspaceDir listing env.fsFail
      (pkgStep.1, wsStep.1 ++ dirStep.1 ++ pkgStep.2.1, pkgStep.2.2)

/-- getBasePackageDir (lines 47 to 53): a leading tilde is replaced by
the user home directory. -/
def getBasePackageDir (home packageDir : String) : String :=
  if strStartsWith packageDir '~' then home ++ strDropOne packageDir else packageDir

/-- packageSmartContract (lines 30 to 40): base directory resolution, the
pipeline, the refresh signal on success and the catch-all error
notification on failure. -/
def packageSmartContract (env : Env) (fs : FSState) (home configuredPackageDir : String) :
    FSState × Trace :=
  let packageDir := getBasePackageDir home configuredPackageDir
  let step := createPackageDir env fs packageDir
  match step.2.2 with
  | .ok _ => (step.1, step.2.1 ++ [.refreshEv])
  | .error m => (step.1, step.2.1 ++ [.errorShown (errStr m)])

/-! Spec-side definitions, written from the words of the specification for
refinement comparison with the source embedding. -/

/-- Detected project language as enumerated in the spec data model. -/
inductive DetectedLanguage where
  | javascript
  | typescript
  | goLang
  | unknown
deriving DecidableEq, Repr

/-- Language segment mapping of spec section 4.4; the unknown variant has
no segment. -/
def languageSegment : DetectedLanguage → Option String
  | .javascript => some "/javascript/"
  | .typescript => some "/typescript/"
  | .goLang => some "/go/src/"
  | .unknown => none

/-- Modelled from the spec (section 4.2), for comparison with getLanguage:
classification by presence of source extensions, evaluated in the spec
precedence order, with the dependency-cache exclusion applied. -/
def specClassify (files : List String) : Except Unit DetectedLanguage :=
  let visible := files.filter (fun f => !(isInNodeModules f))
  let hasJs := visible.any (fun f => strEndsWith f ".js")
  let hasTs := visible.any (fun f => strEndsWith f ".ts")
  let hasGo := visible.any (fun f => strEndsWith f ".go")
  if hasTs && hasJs then .ok .typescript
  else if hasTs && !hasJs then .error ()
  else if hasGo then .ok .goLang
  else if hasJs then .ok .javascript
  else .ok .unknown

/-! Dev-mode toggle (src/client/src/commands/toggleFabricRuntimeDevMode.ts).
The runtime object is modelled by its two observable flags; the calls the
command makes on it are recorded in order. -/

/-- Observable state of a Fabric runtime for the dev-mode toggle. -/
structure FabricRuntime where
  developmentMode : Bool
  running : Bool
deriving DecidableEq, Repr

/-- Calls the toggle command makes on the runtime, in order. -/
inductive RuntimeCall where
  | setDevelopmentMode (b : Bool)
  | restart
deriving DecidableEq, Repr

/-- toggleFabricRuntimeDevMode (lines 22 to 47) on a resolved runtime:
reads the flag, sets its negation, then checks isRunning and restarts
only when running. -/
def toggleFabricRuntimeDevMode (rt : FabricRuntime) : FabricRuntime × List RuntimeCall :=
  let newDevelopmentMode := !rt.developmentMode
  let rt1 : FabricRuntime := { rt with developmentMode := newDevelopmentMode }
  if rt1.running then
    (rt1, [.setDevelopmentMode newDevelopmentMode, .restart])
  else
    (rt1, [.setDevelopmentMode newDevelopmentMode])

/-- Empty filesystem used as the starting state of concrete runs. -/
def emptyFS : FSState := ⟨[], []⟩

/-! Concrete environments used to evaluate the pipeline at specific
inputs. -/

/-- Unclassifiable single-folder workspace: no source files at all. -/
def envC1 : Env :=
  { hostFolders := some ["p"], quickPick := none,
    workspaceFolders := [("p", "/ws/p")],
    filesOf := fun _ => ["readme.md"], manifestOf := fun _ => (none, none),
    nameInput := none, versionInput := none, statOf := fun _ => .enoent,
    fsFail := none, wsFilesOf := fun _ => [] }

/-- JavaScript workspace with a well-formed manifest and a free
destination. -/
def envC2 : Env :=
  { hostFolders := some ["p"], quickPick := none,
    workspaceFolders := [("p", "/ws/js")],
    filesOf := fun ws => if ws = some "/ws/js" then ["chaincode.js"] else [],
    manifestOf := fun _ => (some "foo", some "1.2.3"),
    nameInput := none, versionInput := none, statOf := fun _ => .enoent,
    fsFail := none, wsFilesOf := fun _ => [("chaincode.js", "")] }

/-- Go workspace where the user answers the name prompt and cancels the
version prompt. -/
def envGoVersionCancelled : Env :=
  { hostFolders := some ["goProject"], quickPick := none,
    workspaceFolders := [("goProject", "/ws/goProject")],
    filesOf := fun ws => if ws = some "/ws/goProject" then ["chaincode.go"] else [],
    manifestOf := fun _ => (none, none),
    nameInput := some "myproj", versionInput := none,
    statOf := fun _ => .enoent, fsFail := none,
    wsFilesOf := fun _ => [("chaincode.go", "")] }

/-- Go workspace where the user cancels the name prompt. -/
def envGoNameCancelled : Env :=
  { hostFolders := some ["goProject"], quickPick := none,
    workspaceFolders := [("goProject", "/ws/goProject")],
    filesOf := fun ws => if ws = some "/ws/goProject" then ["chaincode.go"] else [],
    manifestOf := fun _ => (none, none),
    nameInput := none, versionInput := none,
    statOf := fun _ => .enoent, fsFail := none,
    wsFilesOf := fun _ => [("chaincode.go", "")] }

/-- Multi-folder workspace where the user cancels the folder quick pick;
the process working directory scanned afterwards holds no source
files. -/
def envPickCancelled : Env :=
  { hostFolders := some ["a", "b"], quickPick := none,
    workspaceFolders := [("a", "/ws/a"), ("b", "/ws/b")],
    filesOf := fun _ => [], manifestOf := fun _ => (none, none),
    nameInput := none, versionInput := none, statOf := fun _ => .enoent,
    fsFail := none, wsFilesOf := fun _ => [] }

/-- Go workspace where the user confirms an empty string at the name
prompt. -/
def envGoEmptyName : Env :=
  { hostFolders := some ["goProject"], quickPick := none,
    workspaceFolders := [("goProject", "/ws/goProject")],
    filesOf := fun ws => if ws = some "/ws/goProject" then ["chaincode.go"] else [],
    manifestOf := fun _ => (none, none),
    nameInput := some "", versionInput := some "0.0.1",
    statOf := fun _ => .enoent, fsFail := none,
    wsFilesOf := fun _ => [("chaincode.go", "")] }

/-- Host with an empty workspace folder set. -/
def envC5 : Env :=
  { hostFolders := some [], quickPick := none,
    workspaceFolders := [],
    filesOf := fun _ => [], manifestOf := fun _ => (none, none),
    nameInput := none, versionInput := none, statOf := fun _ => .enoent,
    fsFail := none, wsFilesOf := fun _ => [] }

/-- JavaScript workspace whose manifest has an empty name field. -/
def envC6 : Env :=
  { hostFolders := some ["p"], quickPick := none,
    workspaceFolders := [("p", "/ws/js")],
    filesOf := fun ws => if ws = some "/ws/js" then ["chaincode.js"] else [],
    manifestOf := fun _ => (some "", some "0.0.1"),
    nameInput := none, versionInput := none, statOf := fun _ => .enoent,
    fsFail := none, wsFilesOf := fun _ => [("chaincode.js", "")] }

/-- JavaScript workspace whose destination is an existing directory. -/
def envC7ex : Env :=
  { hostFolders := some ["p"], quickPick := none,
    workspaceFolders := [("p", "/ws/js")],
    filesOf := fun ws => if ws = some "/ws/js" then ["chaincode.js"] else [],
    manifestOf := fun _ => (some "foo", some "1.2.3"),
    nameInput := none, versionInput := none, statOf := fun _ => .stats true,
    fsFail := none, wsFilesOf := fun _ => [("chaincode.js", "")] }

/-- JavaScript workspace whose destination does not exist. -/
def envC7en : Env :=
  { hostFolders := some ["p"], quickPick := none,
    workspaceFolders := [("p", "/ws/js")],
    filesOf := fun ws => if ws = some "/ws/js" then ["chaincode.js"] else [],
    manifestOf := fun _ => (some "foo", some "1.2.3"),
    nameInput := none, versionInput := none, statOf := fun _ => .enoent,
    fsFail := none, wsFilesOf := fun _ => [("chaincode.js", "")] }

/-- JavaScript workspace whose destination probe fails with a permission
error. -/
def envC7other : Env :=
  { hostFolders := some ["p"], quickPick := none,
    workspaceFolders := [("p", "/ws/js")],
    filesOf := fun ws => if ws = some "/ws/js" then ["chaincode.js"] else [],
    manifestOf := fun _ => (some "foo", some "1.2.3"),
    nameInput := none, versionInput := none,
    statOf := fun _ => .otherError "EACCES: permission denied",
    fsFail := none, wsFilesOf := fun _ => [("chaincode.js", "")] }

/-- JavaScript workspace for a successful end-to-end packaging run. -/
def envC8 : Env :=
  { hostFolders := some ["p"], quickPick := none,
    workspaceFolders := [("p", "/ws/js")],
    filesOf := fun ws => if ws = some "/ws/js" then ["chaincode.js"] else [],
    manifestOf := fun _ => (some "foo", some "1.2.3"),
    nameInput := none, versionInput := none, statOf := fun _ => .enoent,
    fsFail := none, wsFilesOf := fun _ => [("chaincode.js", ""), ("package.json", "m")] }

/-- JavaScript workspace whose destination path is occupied by a regular
file rather than a directory. -/
def envC9 : Env :=
  { hostFolders := some ["p"], quickPick := none,
    workspaceFolders := [("p", "/ws/js")],
    filesOf := fun ws => if ws = some "/ws/js" then ["chaincode.js"] else [],
    manifestOf := fun _ => (some "foo", some "1.2.3"),
    nameInput := none, versionInput := none, statOf := fun _ => .stats false,
    fsFail := none, wsFilesOf := fun _ => [("chaincode.js", "")] }

/-! Helper lemmas about the embedding. -/

theorem any_iff_filter_pos {α : Type} (p : α → Bool) (l : List α) :
    l.any p = true ↔ 0 < (l.filter p).length := by
  induction l with
  | nil => simp
  | cons a t ih => by_cases h : p a = true <;> simp [h, List.filter_cons, ih]

theorem globFilter_pos_iff (files : List String) (ext : String) :
    0 < (globFilter files ext).length ↔
      (files.filter (fun f => !(isInNodeModules f))).any (fun f => strEndsWith f ext) = true :=
  (any_iff_filter_pos _ _).symm

theorem globFilter_zero_iff (files : List String) (ext : String) :
    (globFilter files ext).length = 0 ↔
      ¬((files.filter (fun f => !(isInNodeModules f))).any (fun f => strEndsWith f ext) = true) := by
  rw [← globFilter_pos_iff]
  omega

theorem getLanguage_segments (files : List String) (l : String)
    (h : (getLanguage files).2 = .ok (some l)) :
    l = "/typescript/" ∨ l = "/go/src/" ∨ l = "/javascript/" := by
  simp only [getLanguage] at h
  split_ifs at h <;> simp_all

theorem getLanguage_ok_trace (files : List String) (x : Option String)
    (h : (getLanguage files).2 = .ok x) : (getLanguage files).1 = [] := by
  simp only [getLanguage] at h ⊢
  split_ifs at h ⊢ <;> simp_all

/-! Theorems settling the claims. -/

theorem getLanguage_error_msg (files : List String) (m : String)
    (h : (getLanguage files).2 = .error m) : m = uncompiledMsg := by
  simp only [getLanguage] at h
  split_ifs at h
  all_goals simp_all

/-- C1: the language detector classifies exactly by the spec precedence:
typescript when ts and js files both exist, the uncompiled-source error
when ts files exist without js files, go next, javascript next, and
otherwise the undefined fall-through on which the caller fails with the
language detection error; in particular a ts plus js plus go project is
typescript and a ts plus go project without js fails as uncompiled. -/
theorem getLanguage_matches_spec_precedence :
    (∀ files : List String,
      Except.mapError (fun _ => ()) (getLanguage files).2 =
        Except.map languageSegment (specClassify files))
    ∧ (∀ files : List String, specClassify files = .error () →
        (getLanguage files).2 = .error uncompiledMsg)
    ∧ (getLanguage ["a.ts", "b.js", "c.go"]).2 = .ok (some "/typescript/")
    ∧ (getLanguage ["a.ts", "c.go"]).2 = .error uncompiledMsg
    ∧ (∀ (env : Env) (pd : String) (ws : Option String),
        (getLanguage (env.filesOf ws)).2 = .ok none →
          (getFinalDirectory env pd ws).2 = .error langFailMsg
          ∧ Event.errorShown langFailMsg ∈ (getFinalDirectory env pd ws).1) := by
  have refines : ∀ files : List String,
      Except.mapError (fun _ => ()) (getLanguage files).2 =
        Except.map languageSegment (specClassify files) := by
    intro files
    unfold getLanguage specClassify
    simp only [globFilter_pos_iff, globFilter_zero_iff]
    by_cases hjs : (files.filter (fun f => !(isInNodeModules f))).any
        (fun f => strEndsWith f ".js") = true <;>
      by_cases hts : (files.filter (fun f => !(isInNodeModules f))).any
          (fun f => strEndsWith f ".ts") = true <;>
        by_cases hgo : (files.filter (fun f => !(isInNodeModules f))).any
            (fun f => strEndsWith f ".go") = true <;>
          simp [hjs, hts, hgo, languageSegment, Except.map, Except.mapError]
  refine ⟨refines, ?_, by rfl, by rfl, ?_⟩
  · intro files h
    rcases hE : (getLanguage files).2 with m | x
    · rw [getLanguage_error_msg files m hE]
    · exfalso
      have hR := refines files
      rw [hE, h] at hR
      simp [Except.mapError, Except.map] at hR
  · intro env pd ws h
    have htr := getLanguage_ok_trace _ _ h
    refine ⟨?_, ?_⟩ <;> simp [getFinalDirectory, h, htr]

/-- Witness for C1 at concrete file sets: the hypothesis-bearing parts
applied at an unclassifiable project and an unknown-classified caller. -/
theorem getLanguage_matches_spec_precedence_witness :
    (getLanguage ["readme.md"]).2 = .ok none
    ∧ (getFinalDirectory envC1 "/pkgs" (some "/ws/p")).2 = .error langFailMsg := by
  refine ⟨by rfl, ?_⟩
  exact (getLanguage_matches_spec_precedence.2.2.2.2
    envC1 "/pkgs" (some "/ws/p") (by rfl)).1

theorem chooseWorkspace_ok_trace (env : Env) (x : Option String)
    (h : (chooseWorkspace env).2 = .ok x) :
    (chooseWorkspace env).1 = [.logMsg "Getting workspace folders..."] := by
  unfold chooseWorkspace at h ⊢
  rcases hW : getWorkspaceFolders env.hostFolders with m | opts
  · rw [hW] at h
    simp at h
  · dsimp only
    split
    · rfl
    · split
      · split <;> rfl
      · rfl

theorem golang_ok_trace (env : Env) (x : Option (Option String × Option String))
    (h : (golangPackageAndVersion env).2 = .ok x) :
    (golangPackageAndVersion env).1 = [] := by
  unfold golangPackageAndVersion at h ⊢
  rcases hN : env.nameInput with _ | n
  · rfl
  · rw [hN] at h
    dsimp only at h ⊢
    by_cases hn : strIsEmpty n = true
    · rw [if_pos hn]
    · rw [if_neg hn] at h ⊢
      rcases hV : env.versionInput with _ | v
      · rfl
      · rw [hV] at h
        dsimp only at h ⊢
        by_cases hv : (!(strIsEmpty v)) = true
        · rw [if_pos hv]
        · rw [if_neg hv] at h
          simp at h

theorem packageJson_ok_trace (env : Env) (ws : Option String)
    (x : Option (Option String × Option String))
    (h : (packageJsonNameAndVersion env ws).2 = .ok x) :
    (packageJsonNameAndVersion env ws).1 = [] := by
  unfold packageJsonNameAndVersion at h ⊢
  rcases ws with _ | w
  · simp at h
  · dsimp only at h ⊢
    by_cases hf : (jsFalsy (env.manifestOf w).1 || jsFalsy (env.manifestOf w).2) = true
    · rw [if_pos hf] at h
      simp at h
    · rw [if_neg hf]

theorem resolver_ok_trace (env : Env) (ws : Option String) (l : String)
    (x : Option (Option String × Option String))
    (h : (if l = "/go/src/" then golangPackageAndVersion env
        else packageJsonNameAndVersion env ws).2 = .ok x) :
    (if l = "/go/src/" then golangPackageAndVersion env
        else packageJsonNameAndVersion env ws).1 = [] := by
  by_cases hl : l = "/go/src/"
  · rw [if_pos hl] at h ⊢
    exact golang_ok_trace env x h
  · rw [if_neg hl] at h ⊢
    exact packageJson_ok_trace env ws x h

/-- C2: the destination is exactly join of the configured package root,
the language segment and name at-v version, with the spec segment mapping
for the three languages; it is a pure function of those inputs, and every
confirmed destination the planner returns has this shape. -/
theorem destination_path_formula_deterministic :
    (∀ root seg name version : String,
        finalDir root seg name version = pathJoin [root, seg, name ++ "@v" ++ version])
    ∧ languageSegment .javascript = some "/javascript/"
    ∧ languageSegment .typescript = some "/typescript/"
    ∧ languageSegment .goLang = some "/go/src/"
    ∧ (∀ r1 s1 n1 v1 r2 s2 n2 v2 : String, r1 = r2 → s1 = s2 → n1 = n2 → v1 = v2 →
        finalDir r1 s1 n1 v1 = finalDir r2 s2 n2 v2)
    ∧ (∀ (env : Env) (pd : String) (ws : Option String) (d : String),
        (getFinalDirectory env pd ws).2 = .ok (some d) →
          ∃ (lang : DetectedLanguage) (seg name version : String),
            languageSegment lang = some seg ∧ d = finalDir pd seg name version) := by
  refine ⟨fun _ _ _ _ => rfl, rfl, rfl, rfl, ?_, ?_⟩
  · intro r1 s1 n1 v1 r2 s2 n2 v2 h1 h2 h3 h4
    rw [h1, h2, h3, h4]
  · intro env pd ws d h
    simp only [getFinalDirectory] at h
    rcases hL : (getLanguage (env.filesOf ws)).2 with m | ol
    · rw [hL] at h
      simp at h
    · rw [hL] at h
      rcases ol with _ | language
      · simp at h
      · dsimp only at h
        rcases hP : (if language = "/go/src/" then golangPackageAndVersion env
            else packageJsonNameAndVersion env ws).2 with m | op
        · rw [hP] at h
          simp at h
        · rw [hP] at h
          rcases op with _ | props
          · simp at h
          · dsimp only at h
            rcases hS : env.statOf (finalDir pd language (jsStr props.1) (jsStr props.2))
                with b | _ | m
            · rw [hS] at h
              rcases b <;> simp at h
            · rw [hS] at h
              simp at h
              rcases getLanguage_segments _ _ hL with hseg | hseg | hseg <;>
                subst hseg <;> subst h
              · exact ⟨.typescript, _, _, _, rfl, rfl⟩
              · exact ⟨.goLang, _, _, _, rfl, rfl⟩
              · exact ⟨.javascript, _, _, _, rfl, rfl⟩
            · rw [hS] at h
              simp at h

/-- Witness for C2 at a concrete javascript run with a free
destination. -/
theorem destination_path_formula_deterministic_witness :
    finalDir "/pkgs" "/javascript/" "foo" "1.2.3" = finalDir "/pkgs" "/javascript/" "foo" "1.2.3"
    ∧ ∃ (lang : DetectedLanguage) (seg name version : String),
        languageSegment lang = some seg
        ∧ "/pkgs/javascript/foo@v1.2.3" = finalDir "/pkgs" seg name version := by
  constructor
  · exact destination_path_formula_deterministic.2.2.2.2.1
      "/pkgs" "/javascript/" "foo" "1.2.3" "/pkgs" "/javascript/" "foo" "1.2.3"
      rfl rfl rfl rfl
  · exact destination_path_formula_deterministic.2.2.2.2.2
      envC2 "/pkgs" (some "/ws/js") "/pkgs/javascript/foo@v1.2.3" (by rfl)

/-- C5: with an empty (or unavailable) workspace folder set the pipeline
fails with the workspace discovery error, shows it to the user and
performs no filesystem mutation.  The folder enumeration itself is
modelled from the spec because CommandsUtil.getWorkspaceFolders is not
under src. -/
theorem empty_workspace_set_discovery_error
    (env : Env) (fs : FSState) (home cfg : String)
    (h : env.hostFolders = some [] ∨ env.hostFolders = none) :
    (packageSmartContract env fs home cfg).1 = fs
    ∧ Event.errorShown wsDiscMsg ∈ (packageSmartContract env fs home cfg).2
    ∧ ((packageSmartContract env fs home cfg).2.filter Event.isFsMutation) = [] := by
  have hcw : chooseWorkspace env =
      ([.logMsg "Getting workspace folders...", .errorShown wsDiscMsg], .error wsDiscMsg) := by
    rcases h with h | h <;> simp [chooseWorkspace, getWorkspaceFolders, h]
  refine ⟨?_, ?_, ?_⟩ <;>
    simp [packageSmartContract, createPackageDir, hcw, Event.isFsMutation]

/-- Witness for C5 at a host with no open workspace folders. -/
theorem empty_workspace_set_discovery_error_witness :
    (packageSmartContract envC5 emptyFS "/home/u" "/pkgs").1 = emptyFS
    ∧ Event.errorShown wsDiscMsg ∈ (packageSmartContract envC5 emptyFS "/home/u" "/pkgs").2 :=
  ⟨(empty_workspace_set_discovery_error envC5 emptyFS "/home/u" "/pkgs" (Or.inl rfl)).1,
   (empty_workspace_set_discovery_error envC5 emptyFS "/home/u" "/pkgs" (Or.inl rfl)).2.1⟩

/-- C6: a javascript or typescript run whose manifest lacks a name or a
version (or has one empty) fails with the missing-manifest-field message
and performs no filesystem mutation at all: the filesystem is returned
unchanged and the trace holds no directory creation or copy. -/
theorem missing_manifest_field_short_circuits
    (env : Env) (fs : FSState) (home cfg : String) (ws l : String)
    (hws : (chooseWorkspace env).2 = .ok (some ws))
    (hlang : (getLanguage (env.filesOf (some ws))).2 = .ok (some l))
    (hgo : l ≠ "/go/src/")
    (hfalsy : (jsFalsy (env.manifestOf ws).1 || jsFalsy (env.manifestOf ws).2) = true) :
    (packageSmartContract env fs home cfg).1 = fs
    ∧ Event.errorShown manifestMsg ∈ (packageSmartContract env fs home cfg).2
    ∧ ((packageSmartContract env fs home cfg).2.filter Event.isFsMutation) = [] := by
  have htr := getLanguage_ok_trace _ _ hlang
  have hwt := chooseWorkspace_ok_trace env (some ws) hws
  have hfd : ∀ pd, getFinalDirectory env pd (some ws) =
      ([.errorShown manifestMsg], .error manifestMsg) := by
    intro pd
    simp [getFinalDirectory, hlang, htr, hgo, packageJsonNameAndVersion, hfalsy]
  refine ⟨?_, ?_, ?_⟩ <;>
    simp [packageSmartContract, createPackageDir, hws, hwt, hfd, Event.isFsMutation]

/-- Witness for C6 at the spec example of a manifest with an empty name
and version 0.0.1. -/
theorem missing_manifest_field_short_circuits_witness :
    (packageSmartContract envC6 emptyFS "/home/u" "/pkgs").1 = emptyFS
    ∧ Event.errorShown manifestMsg ∈ (packageSmartContract envC6 emptyFS "/home/u" "/pkgs").2 :=
  ⟨(missing_manifest_field_short_circuits envC6 emptyFS "/home/u" "/pkgs"
      "/ws/js" "/javascript/" (by rfl) (by rfl) (by decide) (by rfl)).1,
   (missing_manifest_field_short_circuits envC6 emptyFS "/home/u" "/pkgs"
      "/ws/js" "/javascript/" (by rfl) (by rfl) (by decide) (by rfl)).2.1⟩

/-- C7: probing the computed destination: an existing directory yields
the already-exists failure carrying the language-family message (go
guidance differing from manifest guidance) with no filesystem mutation;
an absent path confirms the destination; any other probe failure
propagates as an error and is shown. -/
theorem destination_probe_outcomes
    (env : Env) (pd : String) (ws : Option String) (l : String)
    (props : Option String × Option String)
    (hws : (chooseWorkspace env).2 = .ok ws)
    (hlang : (getLanguage (env.filesOf ws)).2 = .ok (some l))
    (hprops : (if l = "/go/src/" then golangPackageAndVersion env
        else packageJsonNameAndVersion env ws).2 = .ok (some props)) :
    (env.statOf (finalDir pd l (jsStr props.1) (jsStr props.2)) = .stats true →
        (getFinalDirectory env pd ws).2 = .error (errStr (familyExistsMsg l))
        ∧ Event.errorShown (familyExistsMsg l) ∈ (getFinalDirectory env pd ws).1
        ∧ (∀ fs : FSState, (createPackageDir env fs pd).1 = fs)
        ∧ ((getFinalDirectory env pd ws).1.filter Event.isFsMutation) = []
        ∧ familyExistsMsg "/go/src/" ≠ familyExistsMsg "/javascript/")
    ∧ (env.statOf (finalDir pd l (jsStr props.1) (jsStr props.2)) = .enoent →
        (getFinalDirectory env pd ws).2 =
          .ok (some (finalDir pd l (jsStr props.1) (jsStr props.2))))
    ∧ (∀ m, env.statOf (finalDir pd l (jsStr props.1) (jsStr props.2)) = .otherError m →
        (getFinalDirectory env pd ws).2 = .error (errStr m)
        ∧ Event.errorShown (errStr m) ∈ (getFinalDirectory env pd ws).1) := by
  have htr := getLanguage_ok_trace _ _ hlang
  have ptr := resolver_ok_trace env ws l _ hprops
  refine ⟨?_, ?_, ?_⟩
  · intro hstat
    have hfd : (getFinalDirectory env pd ws).2 = .error (errStr (familyExistsMsg l)) := by
      simp [getFinalDirectory, hlang, hprops, hstat, htr, ptr]
    refine ⟨hfd, ?_, ?_, ?_, by decide⟩
    · simp [getFinalDirectory, hlang, hprops, hstat, htr, ptr]
    · intro fs
      simp [createPackageDir, hws, hfd]
    · simp [getFinalDirectory, hlang, hprops, hstat, htr, ptr, Event.isFsMutation]
  · intro hstat
    simp [getFinalDirectory, hlang, hprops, hstat, htr, ptr]
  · intro m hstat
    refine ⟨?_, ?_⟩ <;>
      simp [getFinalDirectory, hlang, hprops, hstat, htr, ptr]

/-- Witness for C7 at three concrete javascript runs differing only in
the probe outcome. -/
theorem destination_probe_outcomes_witness :
    (getFinalDirectory envC7ex "/pkgs" (some "/ws/js")).2 =
      .error (errStr (familyExistsMsg "/javascript/"))
    ∧ (getFinalDirectory envC7en "/pkgs" (some "/ws/js")).2 =
        .ok (some (finalDir "/pkgs" "/javascript/" "foo" "1.2.3"))
    ∧ (getFinalDirectory envC7other "/pkgs" (some "/ws/js")).2 =
        .error (errStr "EACCES: permission denied") := by
  refine ⟨?_, ?_, ?_⟩
  · exact ((destination_probe_outcomes envC7ex "/pkgs" (some "/ws/js") "/javascript/"
      (some "foo", some "1.2.3") (by rfl) (by rfl) (by rfl)).1 (by rfl)).1
  · exact (destination_probe_outcomes envC7en "/pkgs" (some "/ws/js") "/javascript/"
      (some "foo", some "1.2.3") (by rfl) (by rfl) (by rfl)).2.1 (by rfl)
  · exact ((destination_probe_outcomes envC7other "/pkgs" (some "/ws/js") "/javascript/"
      (some "foo", some "1.2.3") (by rfl) (by rfl) (by rfl)).2.2
        "EACCES: permission denied" (by rfl)).1

/-- C8: the materializer creates the destination chain including every
intermediate directory, copies every workspace entry under the
destination preserving relative paths with no filtering, emits the
packaged notification carrying the destination path, and the command
fires the explorer refresh on success. -/
theorem materializer_creates_and_copies
    (fs : FSState) (d ws : String) (listing : List (String × String))
    (env : Env) (home cfg : String) :
    (createAndPackage fs (some d) (some ws) listing none).2.2 = .ok ()
    ∧ (∀ p, p ∈ ancestorDirs d →
        p ∈ (createAndPackage fs (some d) (some ws) listing none).1.dirs)
    ∧ (∀ pc : String × String, pc ∈ listing →
        (d ++ "/" ++ pc.1, pc.2) ∈
          (createAndPackage fs (some d) (some ws) listing none).1.files)
    ∧ Event.infoShown ("Smart Contract packaged: " ++ d) ∈
        (createAndPackage fs (some d) (some ws) listing none).2.1
    ∧ ((createPackageDir env fs (getBasePackageDir home cfg)).2.2 = .ok () →
        Event.refreshEv ∈ (packageSmartContract env fs home cfg).2) := by
  refine ⟨rfl, ?_, ?_, ?_, ?_⟩
  · intro p hp
    simp [createAndPackage, FSState.mkdirp, FSState.copyInto]
    exact Or.inl hp
  · intro pc hpc
    simp only [createAndPackage, FSState.mkdirp, FSState.copyInto, List.mem_append,
      List.mem_map]
    exact Or.inl ⟨pc, hpc, rfl⟩
  · simp [createAndPackage]
  · intro h
    simp [packageSmartContract, h]

/-- Witness for C8 at a concrete javascript packaging run. -/
theorem materializer_creates_and_copies_witness :
    "/pkgs/javascript" ∈ (createAndPackage emptyFS (some "/pkgs/javascript/foo@v1.2.3")
        (some "/ws/js") [("chaincode.js", "")] none).1.dirs
    ∧ ("/pkgs/javascript/foo@v1.2.3/chaincode.js", "") ∈
        (createAndPackage emptyFS (some "/pkgs/javascript/foo@v1.2.3")
          (some "/ws/js") [("chaincode.js", "")] none).1.files
    ∧ Event.refreshEv ∈ (packageSmartContract envC8 emptyFS "/home/u" "/pkgs").2 := by
  refine ⟨?_, ?_, ?_⟩
  · exact (materializer_creates_and_copies emptyFS "/pkgs/javascript/foo@v1.2.3" "/ws/js"
      [("chaincode.js", "")] envC8 "/home/u" "/pkgs").2.1 "/pkgs/javascript" (by decide)
  · exact (materializer_creates_and_copies emptyFS "/pkgs/javascript/foo@v1.2.3" "/ws/js"
      [("chaincode.js", "")] envC8 "/home/u" "/pkgs").2.2.1 ("chaincode.js", "") (by decide)
  · exact (materializer_creates_and_copies emptyFS "/pkgs/javascript/foo@v1.2.3" "/ws/js"
      [("chaincode.js", "")] envC8 "/home/u" "/pkgs").2.2.2.2 (by rfl)

/-- C9: when the stat probe succeeds on a non-directory entry the planner
raises no error and returns the undefined destination, and the pipeline
invokes the create-and-copy stage with that undefined destination rather
than reporting the already-exists collision. -/
theorem file_collision_returns_undefined_destination
    (env : Env) (pd : String) (ws l : String)
    (props : Option String × Option String) (fs : FSState)
    (hws : (chooseWorkspace env).2 = .ok (some ws))
    (hlang : (getLanguage (env.filesOf (some ws))).2 = .ok (some l))
    (hprops : (if l = "/go/src/" then golangPackageAndVersion env
        else packageJsonNameAndVersion env (some ws)).2 = .ok (some props))
    (hstat : env.statOf (finalDir pd l (jsStr props.1) (jsStr props.2)) = .stats false) :
    (getFinalDirectory env pd (some ws)).2 = .ok none
    ∧ ((getFinalDirectory env pd (some ws)).1.filter Event.isErrorShown) = []
    ∧ (createPackageDir env fs pd).2.2 =
        (createAndPackage fs none (some ws) (env.wsFilesOf ws) env.fsFail).2.2
    ∧ Event.errorShown (familyExistsMsg l) ∉ (createPackageDir env fs pd).2.1 := by
  have htr := getLanguage_ok_trace _ _ hlang
  have ptr := resolver_ok_trace env (some ws) l _ hprops
  have hwt := chooseWorkspace_ok_trace env (some ws) hws
  have hfd : getFinalDirectory env pd (some ws) = ([], .ok none) := by
    simp [getFinalDirectory, hlang, hprops, hstat, htr, ptr]
  refine ⟨by rw [hfd], by rw [hfd]; rfl, ?_, ?_⟩
  · simp [createPackageDir, hws, hfd]
  · simp [createPackageDir, hws, hfd, hwt, createAndPackage]
    by_cases hl : l = "/go/src/" <;> simp [familyExistsMsg, hl] <;> decide

/-- Witness for C9 at a concrete run whose destination is occupied by a
regular file. -/
theorem file_collision_returns_undefined_destination_witness :
    (getFinalDirectory envC9 "/pkgs" (some "/ws/js")).2 = .ok none
    ∧ (createPackageDir envC9 emptyFS "/pkgs").2.2 =
        (createAndPackage emptyFS none (some "/ws/js")
          (envC9.wsFilesOf "/ws/js") envC9.fsFail).2.2 := by
  refine ⟨?_, ?_⟩
  · exact (file_collision_returns_undefined_destination envC9 "/pkgs" "/ws/js" "/javascript/"
      (some "foo", some "1.2.3") emptyFS (by rfl) (by rfl) (by rfl) (by rfl)).1
  · exact (file_collision_returns_undefined_destination envC9 "/pkgs" "/ws/js" "/javascript/"
      (some "foo", some "1.2.3") emptyFS (by rfl) (by rfl) (by rfl) (by rfl)).2.2.1

/-- C3: counterexample to silent cancellation: with the go version prompt
cancelled the pipeline still creates and copies into a destination
versioned undefined; with the go name prompt cancelled it raises a
TypeError that is shown as an error notification; with the workspace
quick pick cancelled it continues scanning the process directory and
shows the language detection error. -/
theorem prompt_cancellation_not_silent_abort :
    Event.mkdirpEv "/pkgs/go/src/myproj@vundefined" ∈
      (packageSmartContract envGoVersionCancelled emptyFS "/home/u" "/pkgs").2
    ∧ (packageSmartContract envGoVersionCancelled emptyFS "/home/u" "/pkgs").1 ≠ emptyFS
    ∧ ((packageSmartContract envGoNameCancelled emptyFS "/home/u" "/pkgs").2.filter
        Event.isErrorShown) ≠ []
    ∧ Event.errorShown langFailMsg ∈
        (packageSmartContract envPickCancelled emptyFS "/home/u" "/pkgs").2 :=
  ⟨by decide, by decide, by decide, by decide⟩

/-- C4: counterexample: an empty string confirmed at the go name prompt
is not rejected with the metadata error message; the resolver takes the
cancellation path and returns undefined, after which the pipeline fails
with a TypeError notification instead. -/
theorem empty_go_name_not_rejected :
    (golangPackageAndVersion envGoEmptyName).2 = .ok none
    ∧ Event.errorShown goMetaMsg ∉
        (packageSmartContract envGoEmptyName emptyFS "/home/u" "/pkgs").2
    ∧ Event.errorShown (errStr propTypeErrorMsg) ∈
        (packageSmartContract envGoEmptyName emptyFS "/home/u" "/pkgs").2 :=
  ⟨rfl, by decide, by decide⟩

/-- C10: the dev-mode toggle sets the runtime development flag to the
negation of its previous value unconditionally and as its first call on
the runtime, and invokes restart exactly when the runtime reports it is
running; when not running it returns with the flag toggled and no
restart. -/
theorem toggle_dev_mode_negates_and_restarts_iff_running (rt : FabricRuntime) :
    (toggleFabricRuntimeDevMode rt).1.developmentMode = !rt.developmentMode
    ∧ (toggleFabricRuntimeDevMode rt).2.head? =
        some (.setDevelopmentMode (!rt.developmentMode))
    ∧ (RuntimeCall.restart ∈ (toggleFabricRuntimeDevMode rt).2 ↔ rt.running = true)
    ∧ (rt.running = false →
        (toggleFabricRuntimeDevMode rt).2 = [.setDevelopmentMode (!rt.developmentMode)]) := by
  cases rt with
  | mk dev run => cases run <;> simp [toggleFabricRuntimeDevMode]

/-- Witness for C10 at a concrete stopped runtime. -/
theorem toggle_dev_mode_negates_and_restarts_iff_running_witness :
    (toggleFabricRuntimeDevMode ⟨false, false⟩).2 =
      [.setDevelopmentMode true] :=
  (toggle_dev_mode_negates_and_restarts_iff_running ⟨false, false⟩).2.2.2 rfl

end BlockchainExt
